import Mathlib

/-!
Verification of the synthetic credit-panel generator (`0_generate_dataset.py`)
and the label deriver (`module_dataprep.py : build_default_flags`).

Shallow embedding conventions:
* Dates are calendar triples (year, month, day); pandas Timestamp ordering on
  date-granular values is reflected through a rank function (valid for
  month in 1..12, day in 0..31, which all dates built here satisfy).
  `pd.DateOffset` with months n clamps the day to the target month's length;
  `addMonths` mirrors that.
* Random draws are inputs: each numpy call in the source corresponds to one
  field of `EntityRand` (per-entity draws) or to the `nd` argument (the five
  module-level `n_dummies` draws at line 53, made once before the entity loop).
  `np.random.randint(lo, hi)` returns a value in [lo, hi); theorems carry that
  range as a hypothesis on the draw field.
* Numeric values are rationals; `max`/`min` clipping is exact in IEEE floats as
  well, so no floating-point behaviour relevant to the claims is lost.
* Fallible pandas/numpy operations (concat of an empty list, column assignment
  with a length mismatch, randint with an empty range) are modelled in an
  `Except String` layer.
-/

/-- A calendar date, time-of-day stripped (what `.dt.normalize()` produces). -/
structure Date where
  y : Nat
  m : Nat
  d : Nat
deriving DecidableEq

/-- Rank embedding of dates into naturals; on dates with m ≤ 12 and d ≤ 31 it
agrees with calendar (hence pandas Timestamp) order. -/
def Date.rank (dt : Date) : Nat := dt.y * 512 + dt.m * 32 + dt.d

def dateLeB (a b : Date) : Bool := decide (a.rank ≤ b.rank)

def dateLtB (a b : Date) : Bool := decide (a.rank < b.rank)

@[simp] theorem dateLeB_iff (a b : Date) : dateLeB a b = true ↔ a.rank ≤ b.rank := by
  simp [dateLeB]

@[simp] theorem dateLtB_iff (a b : Date) : dateLtB a b = true ↔ a.rank < b.rank := by
  simp [dateLtB]

theorem dateLeB_false_iff (a b : Date) : dateLeB a b = false ↔ b.rank < a.rank := by
  simp [dateLeB, Nat.lt_iff_add_one_le]

def isLeapYear (y : Nat) : Bool := y % 4 == 0 && (y % 100 != 0 || y % 400 == 0)

def daysInMonth (y m : Nat) : Nat :=
  if m = 2 then (if isLeapYear y then 29 else 28)
  else if m = 4 ∨ m = 6 ∨ m = 9 ∨ m = 11 then 30
  else 31

theorem daysInMonth_le (y m : Nat) : daysInMonth y m ≤ 31 := by
  unfold daysInMonth
  split_ifs <;> omega

/-- `cutoff + pd.DateOffset` with months n: advance the month index by `n`,
clamping the day to the length of the target month. -/
def addMonths (dt : Date) (n : Nat) : Date :=
  let total := dt.y * 12 + (dt.m - 1) + n
  { y := total / 12
    m := total % 12 + 1
    d := min dt.d (daysInMonth (total / 12) (total % 12 + 1)) }

/-- One calendar month more never moves the horizon end earlier. -/
theorem addMonths_rank_mono (dt : Date) (n : Nat) :
    (addMonths dt n).rank ≤ (addMonths dt (n + 1)).rank := by
  have h1 : min dt.d (daysInMonth ((dt.y * 12 + (dt.m - 1) + n) / 12)
      ((dt.y * 12 + (dt.m - 1) + n) % 12 + 1)) ≤ 31 :=
    le_trans (min_le_right _ _) (daysInMonth_le _ _)
  simp only [addMonths, Date.rank]
  omega

/-- One input row of the label deriver: entity id, timestamp (date plus a
sub-day component `tod` that `.normalize()` zeroes), the default indicator,
and the remaining regressor columns abstracted as a tuple of values that the
deriver carries through untouched. -/
structure Row where
  id : String
  date : Date
  tod : Nat
  default_ind : Nat
  extra : List ℚ
deriving DecidableEq

/-- `pd.to_datetime(out["date"]).dt.normalize()`: strip the sub-day component. -/
def normalizeRow (r : Row) : Row := { r with tod := 0 }

/-- One output row: the (normalized) input row plus the three merged label
columns.  A label is `none` exactly when the left-merge found no match, which
is pandas's NaN fill. -/
structure LRow where
  row : Row
  def_ind_1m : Option Nat
  def_ind_2m : Option Nat
  def_ind_3m : Option Nat
deriving DecidableEq

def LRow.lab (lr : LRow) (n : Nat) : Option Nat :=
  if n = 1 then lr.def_ind_1m
  else if n = 2 then lr.def_ind_2m
  else if n = 3 then lr.def_ind_3m
  else none

/-- Mask of line 34: `(out["date"] > data_cutoff) & (out["date"] <= horizon_end)`. -/
def inWindowB (c : Date) (n : Nat) (r : Row) : Bool :=
  dateLtB c r.date && dateLeB r.date (addMonths c n)

/-- `out["id"].drop_duplicates()` (line 28); the `.sort_values()` only affects
presentation order, membership is what the reindex uses. -/
def panelIds (rows : List Row) : List String := (rows.map Row.id).dedup

/-- Maximum of a list of naturals, `0` on the empty list: `.max()` composed
with the reindex over ids (fill value 0) for a group that does exist. -/
def maxOr0 : List Nat → Nat
  | [] => 0
  | a :: t => max a (maxOr0 t)

/-- `out.loc[mask].groupby("id")["default_ind"].max()` for one id, with the
`fill_value = 0` of the reindex when the id has no row in the window. -/
def windowMax (rows : List Row) (c : Date) (n : Nat) (i : String) : Nat :=
  maxOr0 (((rows.filter (inWindowB c n)).filter (fun r => r.id == i)).map Row.default_ind)

/-- The per-id value carried by the series `s` of lines 36-45: the groupby
result reindexed over `ids`.  Ids absent from the panel are not in `s`, so a
left merge on them would produce NaN (`none`); ids present get the window
maximum (0 when the id has no row in the window, from `fill_value = 0`). -/
def labelLookup (rows : List Row) (c : Date) (n : Nat) (i : String) : Option Nat :=
  if i ∈ panelIds rows then some (windowMax rows c n i) else none

/-- The three left merges of line 47.  `s` has one row per id (groupby output
reindexed over the deduplicated id list), so the left merge of `out` with `s`
on the id key keeps each row of `out` exactly once and appends that id's
label value. -/
def addLabels (m : List Row) (c : Date) (r : Row) : LRow :=
  { row := r
    def_ind_1m := labelLookup m c 1 r.id
    def_ind_2m := labelLookup m c 2 r.id
    def_ind_3m := labelLookup m c 3 r.id }

/-- Labelling and truncation applied to the already-normalized panel `out`:
the three merges of the loop at lines 31-47 followed by the truncation
`out = out[out["date"] <= data_cutoff]` at line 50. -/
def labelTruncate (out : List Row) (c : Date) : List LRow :=
  (out.map (addLabels out c)).filter (fun lr => dateLeB lr.row.date c)

/-- `build_default_flags(df, data_cutoff)` of `module_dataprep.py`, for an
already-parsed cutoff (`pd.to_datetime(data_cutoff).normalize()` succeeded). -/
def build_default_flags (df : List Row) (c : Date) : List LRow :=
  labelTruncate (df.map normalizeRow) c

/-- Heap model for the frame-effect claim: a store of dataframe objects;
a dataframe argument is a reference (index) into the store. -/
def storeGet (s : List (List Row)) (r : Nat) : List Row := s.getD r []

/-- The body of `build_default_flags` at the level of object identity:
`out = df.copy()` allocates a fresh cell holding a copy of the referenced
value (line 23); `out["date"] = pd.to_datetime(out["date"]).dt.normalize()`
writes through the `out` reference in place (line 24); the merges and the
final mask each build new objects bound to the local name `out`.  Returns the
final store and the function's result. -/
def build_default_flags_prog (s : List (List Row)) (dfRef : Nat) (c : Date) :
    List (List Row) × List LRow :=
  let s1 := s ++ [storeGet s dfRef]
  let outRef := s.length
  let s2 := s1.set outRef ((storeGet s1 outRef).map normalizeRow)
  (s2, labelTruncate (storeGet s2 outRef) c)

/-- The random draws one entity's generation consumes, in source order
(lines 64-142 of `0_generate_dataset.py`).  Each field stands for one numpy
call; distributional support (e.g. a randint draw lying in its half-open
range) is carried as a hypothesis where a claim needs it.
`scaleDrawSpecC1` has no counterpart in the source: it exists only so that
the claim-C1 spec variant (a per-entity scale draw) can be written down. -/
structure EntityRand where
  defaultRand : ℚ
  defaultIdxDraw : Nat
  sectorDraw : Fin 4
  initLimit : ℚ
  limitChangeRand : Nat → ℚ
  limitChangePct : Nat → ℚ
  limitSignRand : Nat → ℚ
  epsDraw : Nat → ℚ
  dummyZ : Fin 5 → Nat → ℚ
  scaleDrawSpecC1 : Fin 5 → ℚ

/-- Line 64: `np.random.rand() < 0.05`. -/
def entityDefaultsB (er : EntityRand) : Bool := decide (er.defaultRand < mkRat 5 100)

/-- Lines 66-70: `min_default_idx = int(no_obs_per_id * 0.10)` with the guard
clamping it below `no_obs_per_id`.  `int(L * 0.10)` truncates the float
product toward zero, which equals `L / 10` in naturals for every realistic
grid length (the rounding error of `0.10` never carries the product across an
integer). -/
def min_default_idx (L : Nat) : Nat :=
  if L / 10 ≥ L then (if 0 < L then L - 1 else 0) else L / 10

/-- Line 72: `first_default_idx = np.random.randint(min_default_idx, no_obs)`;
the draw itself is the input, its range is a hypothesis where needed. -/
def first_default_idx (er : EntityRand) : Nat := er.defaultIdxDraw

/-- Lines 90-103, one step of the credit-limit walk: with probability
`1 / no_obs` shock by a ±20-30% relative amount, floored at 10000; otherwise
carry the previous value. -/
def limitStep (L : Nat) (er : EntityRand) (i : Nat) (cur : ℚ) : ℚ :=
  if er.limitChangeRand i < mkRat 1 L then
    (if er.limitSignRand i < mkRat 1 2 then
      max 10000 (cur + cur * er.limitChangePct i)
    else
      max 10000 (cur - cur * er.limitChangePct i))
  else cur

/-- The credit-limit trajectory (lines 87-104): starts at the uniform
[100000, 5000000] draw, then iterates `limitStep`. -/
def credit_limit_at (L : Nat) (er : EntityRand) : Nat → ℚ
  | 0 => er.initLimit
  | i + 1 => limitStep L er (i + 1) (credit_limit_at L er i)

/-- The pre-clip carry value of the usage walk (lines 122-134): starts at
half the initial limit; each step adds the Gaussian increment to the clipped
observed value of the previous row. -/
def used_carry_at (L : Nat) (er : EntityRand) : Nat → ℚ
  | 0 => er.initLimit * mkRat 1 2
  | i + 1 =>
      max 0 (min (credit_limit_at L er i) (used_carry_at L er i)) + er.epsDraw i

/-- The observed usage of row `i` (lines 127-130): the carry clipped into
`[0, credit_limit]` before the next increment is applied. -/
def used_amount_at (L : Nat) (er : EntityRand) (i : Nat) : ℚ :=
  max 0 (min (credit_limit_at L er i) (used_carry_at L er i))

/-- Lines 77/79: the default indicator of row `i` is
`(date_i >= default_date)` for a defaulting entity, 0 otherwise. -/
def default_ind_at (grid : Nat → Date) (er : EntityRand) (i : Nat) : Nat :=
  if entityDefaultsB er then
    (if dateLeB (grid (first_default_idx er)) (grid i) then 1 else 0)
  else 0

/-- One generated row after the nullification pass.  `none` models NaN. -/
structure ERow where
  id : String
  date : Date
  default_ind : Nat
  sector : Option (Fin 4)
  credit_limit : Option ℚ
  used_amount : Option ℚ
  f_dummy : Fin 5 → Option ℚ

/-- Line 155's mask for row `i`: the entity defaulted and
`date_i >= default_date`. -/
def nullifiedB (grid : Nat → Date) (er : EntityRand) (i : Nat) : Bool :=
  entityDefaultsB er && dateLeB (grid (first_default_idx er)) (grid i)

/-- Row `i` of one entity in the final dataset: the regressors of
lines 83-142, overwritten with NaN by lines 147-155 wherever the
nullification mask holds; `default_ind` is excluded from the nullified
columns (line 152) and keeps its line-77 value. -/
def genRow (grid : Nat → Date) (L : Nat) (nd : Fin 5 → ℚ) (idStr : String)
    (er : EntityRand) (i : Nat) : ERow :=
  { id := idStr
    date := grid i
    default_ind := default_ind_at grid er i
    sector := if nullifiedB grid er i then none else some er.sectorDraw
    credit_limit := if nullifiedB grid er i then none
      else some (credit_limit_at L er i)
    used_amount := if nullifiedB grid er i then none
      else some (used_amount_at L er i)
    f_dummy := fun k => if nullifiedB grid er i then none
      else some (nd k * er.dummyZ k i) }

/-- The L rows of one entity (`id_df` after all per-entity stages). -/
def genEntityRows (grid : Nat → Date) (L : Nat) (nd : Fin 5 → ℚ)
    (idStr : String) (er : EntityRand) : List ERow :=
  (List.range L).map (genRow grid L nd idStr er)

/-- Modelled from the spec (the variant claim C1 asserts): the noise-feature
value with a scale factor drawn once per (entity, feature) pair, i.e. read
from the entity's own draw record instead of the module-level `n_dummies`
of line 53. -/
def f_dummy_specC1 (er : EntityRand) (k : Fin 5) (i : Nat) : ℚ :=
  er.scaleDrawSpecC1 k * er.dummyZ k i

/-- `np.random.randint(lo, hi)` raises `ValueError: low >= high` on an empty
range; otherwise the draw is some value of `[lo, hi)`. -/
def randintE (lo hi draw : Nat) : Except String Nat :=
  if lo < hi then .ok draw else .error "low >= high"

/-- `id_df[col] = values` raises when the list's length differs from the
frame's row count. -/
def assignSeriesE (L len : Nat) : Except String Unit :=
  if len = L then .ok () else .error "Length of values does not match length of index"

/-- The python list `credit_limits` (lines 88-103): `[initial]` then one
appended value per loop iteration `i in range(1, no_obs)` — so its length is
1 even when the frame has 0 rows. -/
def credit_limits_list (L : Nat) (er : EntityRand) : List ℚ :=
  er.initLimit :: (List.range (L - 1)).map (fun j => credit_limit_at L er (j + 1))

/-- One iteration of the entity loop with its failure points: the
`randint` of line 72 (reached only when the default Bernoulli fires) and the
column assignment of line 104 (the first length-checked assignment; the
`used_amount` and dummy columns always have exactly L values). -/
def genEntityE (grid : Nat → Date) (L : Nat) (nd : Fin 5 → ℚ) (idStr : String)
    (er : EntityRand) : Except String (List ERow) :=
  (if entityDefaultsB er then
    (randintE (min_default_idx L) L er.defaultIdxDraw).map (fun _ => ())
  else .ok ()) >>= fun _ =>
  assignSeriesE L (credit_limits_list L er).length >>= fun _ =>
  .ok (genEntityRows grid L nd idStr er)

/-- Line 47 of the spec'd generator script: ids `ID_0001` .. (zero padding
omitted; only distinctness matters here). -/
def idStrOf (e : Nat) : String := "ID_" ++ toString (e + 1)

/-- The entity loop of lines 59-157, collecting each `id_df`. -/
def seqEntitiesE (grid : Nat → Date) (L : Nat) (nd : Fin 5 → ℚ)
    (ers : Nat → EntityRand) : List Nat → Except String (List (List ERow))
  | [] => .ok []
  | e :: rest =>
      genEntityE grid L nd (idStrOf e) (ers e) >>= fun d =>
      (seqEntitiesE grid L nd ers rest).map (fun ds => d :: ds)

/-- `pd.concat(all_id_data)` (line 160) raises `ValueError` when handed an
empty list of objects. -/
def pdConcatE (dfs : List (List ERow)) : Except String (List ERow) :=
  if dfs.isEmpty then .error "No objects to concatenate" else .ok dfs.flatten

/-- The full generator run: N entities over an L-point grid, the five
`n_dummies` scales `nd` drawn once up front (line 53), per-entity draws
`ers`, concatenated at line 160. -/
def genDatasetE (N L : Nat) (grid : Nat → Date) (nd : Fin 5 → ℚ)
    (ers : Nat → EntityRand) : Except String (List ERow) :=
  seqEntitiesE grid L nd ers (List.range N) >>= pdConcatE

/-! ### Supporting lemmas for the label deriver -/

theorem maxOr0_le_one {l : List Nat} (h : ∀ x ∈ l, x ≤ 1) : maxOr0 l ≤ 1 := by
  induction l with
  | nil => simp [maxOr0]
  | cons a t ih =>
      simp only [maxOr0]
      exact max_le (h a (List.mem_cons_self a t))
        (ih fun x hx => h x (List.mem_cons_of_mem a hx))

theorem le_maxOr0_of_mem {l : List Nat} {x : Nat} (h : x ∈ l) : x ≤ maxOr0 l := by
  induction l with
  | nil => cases h
  | cons a t ih =>
      rcases List.mem_cons.mp h with rfl | hx
      · exact le_max_left _ _
      · exact le_trans (ih hx) (le_max_right _ _)

theorem maxOr0_eq_zero {l : List Nat} (h : ∀ x ∈ l, x = 0) : maxOr0 l = 0 := by
  induction l with
  | nil => rfl
  | cons a t ih =>
      simp only [maxOr0, h a (List.mem_cons_self a t)]
      simp [ih fun x hx => h x (List.mem_cons_of_mem a hx)]

theorem maxOr0_eq_one_iff {l : List Nat} (h : ∀ x ∈ l, x ≤ 1) :
    maxOr0 l = 1 ↔ ∃ x ∈ l, x = 1 := by
  constructor
  · intro h1
    by_contra hc
    push_neg at hc
    have h0 : maxOr0 l = 0 := maxOr0_eq_zero fun x hx => by
      have := h x hx; have := hc x hx; omega
    omega
  · rintro ⟨x, hx, rfl⟩
    have h1 := le_maxOr0_of_mem hx
    have h2 := maxOr0_le_one h
    omega

theorem maxOr0_le_of_sublist {l l' : List Nat} (h : List.Sublist l l') :
    maxOr0 l ≤ maxOr0 l' := by
  induction h with
  | slnil => exact le_refl _
  | cons a _ ih => exact le_trans ih (le_max_right _ _)
  | cons₂ a _ ih => exact max_le_max (le_refl a) ih

theorem filter_map_comm {α β : Type} (f : α → β) (p : β → Bool) (l : List α) :
    (l.map f).filter p = (l.filter (fun a => p (f a))).map f := by
  induction l with
  | nil => rfl
  | cons a t ih =>
      by_cases hp : p (f a) = true
      · simp [List.filter_cons, hp, ih]
      · simp [List.filter_cons, hp, ih]

theorem inWindowB_mono {c : Date} {n : Nat} {r : Row} (h : inWindowB c n r = true) :
    inWindowB c (n + 1) r = true := by
  simp only [inWindowB, Bool.and_eq_true, dateLtB_iff, dateLeB_iff] at h ⊢
  exact ⟨h.1, le_trans h.2 (addMonths_rank_mono c n)⟩

theorem windowMax_mono (rows : List Row) (c : Date) (n : Nat) (i : String) :
    windowMax rows c n i ≤ windowMax rows c (n + 1) i := by
  apply maxOr0_le_of_sublist
  apply List.Sublist.map
  apply List.Sublist.filter
  exact List.monotone_filter_right rows fun r hr => inWindowB_mono hr

theorem windowMax_le_one {rows : List Row} (c : Date) (n : Nat) (i : String)
    (hd : ∀ r ∈ rows, r.default_ind ≤ 1) : windowMax rows c n i ≤ 1 := by
  apply maxOr0_le_one
  intro x hx
  obtain ⟨r, hr, rfl⟩ := List.mem_map.mp hx
  exact hd r (List.mem_filter.mp (List.mem_filter.mp hr).1).1

theorem windowMax_eq_one_iff {rows : List Row} (c : Date) (n : Nat) (i : String)
    (hd : ∀ r ∈ rows, r.default_ind ≤ 1) :
    windowMax rows c n i = 1
      ↔ ∃ r ∈ rows, r.id = i ∧ r.default_ind = 1 ∧ inWindowB c n r = true := by
  unfold windowMax
  rw [maxOr0_eq_one_iff]
  · constructor
    · rintro ⟨x, hx, rfl⟩
      obtain ⟨r, hr, hdind⟩ := List.mem_map.mp hx
      have h1 := List.mem_filter.mp hr
      have h2 := List.mem_filter.mp h1.1
      exact ⟨r, h2.1, by simpa using h1.2, hdind, h2.2⟩
    · rintro ⟨r, hr, hid, hdind, hw⟩
      refine ⟨r.default_ind, List.mem_map_of_mem Row.default_ind ?_, hdind⟩
      exact List.mem_filter.mpr ⟨List.mem_filter.mpr ⟨hr, hw⟩, by simpa using hid⟩
  · intro x hx
    obtain ⟨r, hr, rfl⟩ := List.mem_map.mp hx
    exact hd r (List.mem_filter.mp (List.mem_filter.mp hr).1).1

theorem addLabels_row (m : List Row) (c : Date) (r : Row) : (addLabels m c r).row = r := rfl

theorem build_rows_eq (df : List Row) (c : Date) :
    (build_default_flags df c).map LRow.row
      = (df.map normalizeRow).filter (fun r => dateLeB r.date c) := by
  unfold build_default_flags labelTruncate
  rw [filter_map_comm, List.map_map]
  exact List.map_id _

theorem mem_build_iff (df : List Row) (c : Date) (lr : LRow) :
    lr ∈ build_default_flags df c
      ↔ ∃ r ∈ df.map normalizeRow,
          lr = addLabels (df.map normalizeRow) c r ∧ dateLeB r.date c = true := by
  unfold build_default_flags labelTruncate
  simp only [List.mem_filter, List.mem_map]
  constructor
  · rintro ⟨⟨r, hr, rfl⟩, hle⟩
    exact ⟨r, hr, rfl, hle⟩
  · rintro ⟨r, hr, rfl, hle⟩
    exact ⟨⟨r, hr, rfl⟩, hle⟩

theorem normalizeRow_pair (r : Row) : ((normalizeRow r).id, (normalizeRow r).date) = (r.id, r.date) := rfl

/-! ### Label-deriver claims -/

/-- C3: for every input panel with distinct (entity, timestamp) pairs and
parseable cutoff, `build_default_flags` emits zero rows dated strictly after
the cutoff, and its rows are exactly the (normalized) input rows with
date ≤ cutoff — no duplicates, no dropped in-scope rows. -/
theorem c3_no_leakage_and_row_preservation (df : List Row) (c : Date)
    (hnd : (df.map (fun r => (r.id, r.date))).Nodup) :
    (∀ lr ∈ build_default_flags df c, dateLeB lr.row.date c = true)
    ∧ (build_default_flags df c).map LRow.row
        = (df.map normalizeRow).filter (fun r => dateLeB r.date c)
    ∧ ((build_default_flags df c).map (fun lr => (lr.row.id, lr.row.date))).Nodup := by
  refine ⟨?_, build_rows_eq df c, ?_⟩
  · intro lr hlr
    obtain ⟨r, _, rfl, hle⟩ := (mem_build_iff df c lr).mp hlr
    exact hle
  · have hmapeq : (build_default_flags df c).map (fun lr => (lr.row.id, lr.row.date))
        = ((build_default_flags df c).map LRow.row).map (fun r => (r.id, r.date)) := by
      rw [List.map_map]
      rfl
    rw [hmapeq, build_rows_eq]
    have hsub : List.Sublist
        (((df.map normalizeRow).filter (fun r => dateLeB r.date c)).map
          (fun r => (r.id, r.date)))
        ((df.map normalizeRow).map (fun r => (r.id, r.date))) :=
      List.Sublist.map _ (List.filter_sublist _)
    have heq : (df.map normalizeRow).map (fun r => (r.id, r.date))
        = df.map (fun r => (r.id, r.date)) := by
      rw [List.map_map]
      rfl
    rw [heq] at hsub
    exact hnd.sublist hsub

/-- Concrete run of the C3 theorem: the two-row panel of the spec's
end-to-end scenario, cutoff 2024-01-08. -/
def rW1 : Row := ⟨"a", ⟨2024, 1, 1⟩, 0, 0, []⟩

def rW2 : Row := ⟨"a", ⟨2024, 1, 22⟩, 0, 1, []⟩

def dfW : List Row := [rW1, rW2]

def cW : Date := ⟨2024, 1, 8⟩

def lrW : LRow := ⟨rW1, some 1, some 1, some 1⟩

theorem c3_no_leakage_and_row_preservation_witness :
    (∀ lr ∈ build_default_flags dfW cW, dateLeB lr.row.date cW = true)
    ∧ (build_default_flags dfW cW).map LRow.row
        = (dfW.map normalizeRow).filter (fun r => dateLeB r.date cW)
    ∧ ((build_default_flags dfW cW).map (fun lr => (lr.row.id, lr.row.date))).Nodup :=
  c3_no_leakage_and_row_preservation dfW cW (by decide)

/-- C4: for horizon n ∈ {1,2,3} and 0/1-valued `default_ind`, every output
row's n-month label is present (0 or 1, never NaN) and is 1 exactly when the
row's entity has some input row with `default_ind = 1` dated strictly after
the cutoff and at or before cutoff + n calendar months. -/
theorem c4_label_window_semantics (df : List Row) (c : Date) (n : Nat)
    (hn : 1 ≤ n ∧ n ≤ 3) (hd : ∀ r ∈ df, r.default_ind ≤ 1) :
    ∀ lr ∈ build_default_flags df c,
      (lr.lab n = some 0 ∨ lr.lab n = some 1)
      ∧ (lr.lab n = some 1
          ↔ ∃ r ∈ df, r.id = lr.row.id ∧ r.default_ind = 1 ∧ inWindowB c n r = true) := by
  intro lr hlr
  obtain ⟨r, hr, rfl, hle⟩ := (mem_build_iff df c lr).mp hlr
  have hdm : ∀ r' ∈ df.map normalizeRow, r'.default_ind ≤ 1 := by
    intro r' hr'
    obtain ⟨r0, h0, rfl⟩ := List.mem_map.mp hr'
    exact hd r0 h0
  have hid : r.id ∈ panelIds (df.map normalizeRow) :=
    List.mem_dedup.mpr (List.mem_map_of_mem Row.id hr)
  have hlab : (addLabels (df.map normalizeRow) c r).lab n
      = some (windowMax (df.map normalizeRow) c n r.id) := by
    obtain ⟨h1, h3⟩ := hn
    interval_cases n <;> simp [LRow.lab, addLabels, labelLookup, hid]
  rw [hlab]
  constructor
  · have hb := @windowMax_le_one (df.map normalizeRow) c n r.id hdm
    have : windowMax (df.map normalizeRow) c n r.id = 0
        ∨ windowMax (df.map normalizeRow) c n r.id = 1 := by omega
    rcases this with h | h <;> simp [h]
  · rw [Option.some_inj]
    rw [windowMax_eq_one_iff c n r.id hdm]
    constructor
    · rintro ⟨r', hr', hid', hdind', hw'⟩
      obtain ⟨r0, h0, rfl⟩ := List.mem_map.mp hr'
      exact ⟨r0, h0, hid', hdind', hw'⟩
    · rintro ⟨r0, h0, hid0, hdind0, hw0⟩
      exact ⟨normalizeRow r0, List.mem_map_of_mem _ h0, hid0, hdind0, hw0⟩

theorem c4_label_window_semantics_witness :
    (lrW.lab 1 = some 0 ∨ lrW.lab 1 = some 1)
    ∧ (lrW.lab 1 = some 1
        ↔ ∃ r ∈ dfW, r.id = lrW.row.id ∧ r.default_ind = 1 ∧ inWindowB cW 1 r = true) :=
  c4_label_window_semantics dfW cW 1 (by decide) (by decide) lrW (by decide)

/-- C9: on every output row the labels are monotone in the horizon,
def_ind_1m ≤ def_ind_2m ≤ def_ind_3m, because the 1-month window is
contained in the 2-month window, itself contained in the 3-month window. -/
theorem c9_labels_monotone_in_horizon (df : List Row) (c : Date) :
    ∀ lr ∈ build_default_flags df c,
      lr.def_ind_1m.getD 0 ≤ lr.def_ind_2m.getD 0
      ∧ lr.def_ind_2m.getD 0 ≤ lr.def_ind_3m.getD 0 := by
  intro lr hlr
  obtain ⟨r, hr, rfl, _⟩ := (mem_build_iff df c lr).mp hlr
  have hid : r.id ∈ panelIds (df.map normalizeRow) :=
    List.mem_dedup.mpr (List.mem_map_of_mem Row.id hr)
  simp only [addLabels, labelLookup, if_pos hid, Option.getD_some]
  exact ⟨windowMax_mono _ c 1 r.id, windowMax_mono _ c 2 r.id⟩

theorem c9_labels_monotone_in_horizon_witness :
    lrW.def_ind_1m.getD 0 ≤ lrW.def_ind_2m.getD 0
    ∧ lrW.def_ind_2m.getD 0 ≤ lrW.def_ind_3m.getD 0 :=
  c9_labels_monotone_in_horizon dfW cW lrW (by decide)

/-- C10: the deriver never writes through its input reference — the only
in-place column write hits the freshly allocated copy — so after the call the
caller's dataframe cell holds exactly what it held before, and the result is
the pure function of that (unchanged) value. -/
theorem storeGet_set_ne (s : List (List Row)) (i j : Nat) (w : List Row)
    (hne : i ≠ j) : storeGet (s.set i w) j = storeGet s j := by
  unfold storeGet
  rw [List.getD_eq_getElem?_getD, List.getElem?_set_ne hne,
    ← List.getD_eq_getElem?_getD]

theorem storeGet_append_lt (s t : List (List Row)) (j : Nat) (h : j < s.length) :
    storeGet (s ++ t) j = storeGet s j := by
  unfold storeGet
  rw [List.getD_eq_getElem?_getD, List.getElem?_append, if_pos h,
    ← List.getD_eq_getElem?_getD]

theorem storeGet_set_self (s : List (List Row)) (i : Nat) (w : List Row)
    (h : i < s.length) : storeGet (s.set i w) i = w := by
  unfold storeGet
  rw [List.getD_eq_getElem?_getD, List.getElem?_set_eq_of_lt _ h]
  rfl

theorem storeGet_concat_length (s : List (List Row)) (w : List Row) :
    storeGet (s ++ [w]) s.length = w := by
  unfold storeGet
  rw [List.getD_eq_getElem?_getD, List.getElem?_concat_length]
  rfl

theorem c10_input_frame_unchanged (s : List (List Row)) (dfRef : Nat) (c : Date)
    (h : dfRef < s.length) :
    storeGet (build_default_flags_prog s dfRef c).1 dfRef = storeGet s dfRef
    ∧ (build_default_flags_prog s dfRef c).2 = build_default_flags (storeGet s dfRef) c := by
  have hne : s.length ≠ dfRef := Nat.ne_of_gt h
  constructor
  · show storeGet (((s ++ [storeGet s dfRef]).set s.length
        ((storeGet (s ++ [storeGet s dfRef]) s.length).map normalizeRow))) dfRef
      = storeGet s dfRef
    rw [storeGet_set_ne _ _ _ _ hne, storeGet_append_lt _ _ _ h]
  · show labelTruncate (storeGet ((s ++ [storeGet s dfRef]).set s.length
        ((storeGet (s ++ [storeGet s dfRef]) s.length).map normalizeRow)) s.length) c
      = build_default_flags (storeGet s dfRef) c
    rw [storeGet_set_self _ _ _ (by simp), storeGet_concat_length]
    rfl

theorem c10_input_frame_unchanged_witness :
    storeGet (build_default_flags_prog [dfW] 0 cW).1 0 = storeGet [dfW] 0
    ∧ (build_default_flags_prog [dfW] 0 cW).2 = build_default_flags (storeGet [dfW] 0) cW :=
  c10_input_frame_unchanged [dfW] 0 cW (by decide)

/-! ### Generator claims -/

/-- A weekly-like strictly increasing concrete grid for witnesses. -/
def gridW : Nat → Date := fun i => ⟨2020, 1, i + 1⟩

def ndW : Fin 5 → ℚ := fun _ => 5

/-- A concrete defaulting entity: the Bernoulli draw 0 < 0.05 fires and the
first-default index draw is 2. -/
def erDef : EntityRand :=
  { defaultRand := 0
    defaultIdxDraw := 2
    sectorDraw := 0
    initLimit := 200000
    limitChangeRand := fun _ => 1
    limitChangePct := fun _ => mkRat 1 4
    limitSignRand := fun _ => 1
    epsDraw := fun _ => 0
    dummyZ := fun _ _ => 1
    scaleDrawSpecC1 := fun _ => 3 }

/-- A concrete never-defaulting entity (Bernoulli draw 1 ≥ 0.05). -/
def erNoDef : EntityRand := { erDef with defaultRand := 1 }

/-- Like `erNoDef` but with a different would-be per-entity scale draw. -/
def erB : EntityRand := { erNoDef with scaleDrawSpecC1 := fun _ => 4 }

theorem credit_limit_nonneg (L : Nat) (er : EntityRand) (h0 : 0 ≤ er.initLimit) :
    ∀ i, 0 ≤ credit_limit_at L er i := by
  intro i
  induction i with
  | zero => exact h0
  | succ i ih =>
      simp only [credit_limit_at, limitStep]
      split_ifs
      · exact le_trans (by norm_num) (le_max_left (10000 : ℚ) _)
      · exact le_trans (by norm_num) (le_max_left (10000 : ℚ) _)
      · exact ih

/-- C1 counterexample: two entities whose standard-normal draws agree get
identical noise-feature values from the generator — the scale multiplying the
draws is the module-level one of line 53, shared across entities — whereas
independently drawn per-entity scales (the spec variant `f_dummy_specC1`)
give them different values.  The claim that the code draws the scale once per
(entity, feature) pair is therefore false at this input. -/
theorem c1_counterexample :
    (genRow gridW 5 ndW "ID_0001" erNoDef 0).f_dummy 0
      = (genRow gridW 5 ndW "ID_0002" erB 0).f_dummy 0
    ∧ f_dummy_specC1 erNoDef 0 0 ≠ f_dummy_specC1 erB 0 0 := by
  constructor
  · rfl
  · simp [f_dummy_specC1, erNoDef, erB, erDef]

/-- C1 (amended): the noise-feature scale is drawn once per feature slot
before the entity loop and shared by the whole population: at any
non-nullified row, every entity's emitted value is the global `nd k` scale
times its own standard-normal draw, so two entities with equal draws emit
equal values. -/
theorem c1_scale_shared_by_population (grid : Nat → Date) (L : Nat)
    (nd : Fin 5 → ℚ) (id1 id2 : String) (er1 er2 : EntityRand) (k : Fin 5)
    (i : Nat) (h1 : nullifiedB grid er1 i = false)
    (h2 : nullifiedB grid er2 i = false)
    (hz : er1.dummyZ k i = er2.dummyZ k i) :
    (genRow grid L nd id1 er1 i).f_dummy k = some (nd k * er1.dummyZ k i)
    ∧ (genRow grid L nd id1 er1 i).f_dummy k
        = (genRow grid L nd id2 er2 i).f_dummy k := by
  constructor
  · simp [genRow, h1]
  · simp [genRow, h1, h2, hz]

theorem c1_scale_shared_by_population_witness :
    ((genRow gridW 5 ndW "ID_0001" erNoDef 0).f_dummy 0
      = some (ndW 0 * erNoDef.dummyZ 0 0))
    ∧ (genRow gridW 5 ndW "ID_0001" erNoDef 0).f_dummy 0
        = (genRow gridW 5 ndW "ID_0002" erB 0).f_dummy 0 :=
  c1_scale_shared_by_population gridW 5 ndW "ID_0001" "ID_0002" erNoDef erB 0 0
    (by decide) (by decide) (by decide)

/-- C2 counterexample: for a defaulting entity the row AT the first-default
timestamp is nullified (used_amount and credit_limit are NaN there), so
"0 ≤ used_amount ≤ credit_limit at every row at/before the first-default
timestamp" fails at that row. -/
theorem c2_counterexample :
    entityDefaultsB erDef = true
    ∧ first_default_idx erDef = 2
    ∧ (genRow gridW 5 ndW "ID_0001" erDef 2).used_amount = none
    ∧ ¬ ∃ u l, (genRow gridW 5 ndW "ID_0001" erDef 2).used_amount = some u
        ∧ (genRow gridW 5 ndW "ID_0001" erDef 2).credit_limit = some l
        ∧ 0 ≤ u ∧ u ≤ l := by
  refine ⟨by decide, rfl, by decide, ?_⟩
  rintro ⟨u, l, hu, -, -, -⟩
  rw [show (genRow gridW 5 ndW "ID_0001" erDef 2).used_amount = none by decide] at hu
  cases hu

/-- C2 (amended): the emitted used_amount is present and within
[0, credit_limit] at every row strictly before the first-default timestamp
(all rows for a never-defaulting entity); moreover the pre-nullification
usage trajectory satisfies the bound at every row of the grid, because each
row's observed value is the carry clipped into [0, credit_limit] before the
Gaussian increment is applied. -/
theorem c2_usage_bound_before_default (grid : Nat → Date) (L : Nat)
    (nd : Fin 5 → ℚ) (idStr : String) (er : EntityRand) (i : Nat)
    (h0 : 0 ≤ er.initLimit)
    (hpre : entityDefaultsB er = true →
      (grid i).rank < (grid (first_default_idx er)).rank) :
    (∃ u l, (genRow grid L nd idStr er i).used_amount = some u
      ∧ (genRow grid L nd idStr er i).credit_limit = some l ∧ 0 ≤ u ∧ u ≤ l)
    ∧ (∀ j, 0 ≤ used_amount_at L er j
        ∧ used_amount_at L er j ≤ credit_limit_at L er j) := by
  have hbound : ∀ j, 0 ≤ used_amount_at L er j
      ∧ used_amount_at L er j ≤ credit_limit_at L er j := by
    intro j
    constructor
    · exact le_max_left 0 _
    · exact max_le (credit_limit_nonneg L er h0 j) (min_le_left _ _)
  have hnul : nullifiedB grid er i = false := by
    unfold nullifiedB
    cases hd : entityDefaultsB er
    · simp
    · have hr := hpre hd
      simp only [Bool.true_and, dateLeB]
      simp
      omega
  refine ⟨⟨used_amount_at L er i, credit_limit_at L er i, ?_, ?_, (hbound i).1, (hbound i).2⟩, hbound⟩
  · simp [genRow, hnul]
  · simp [genRow, hnul]

theorem c2_usage_bound_before_default_witness :
    (∃ u l, (genRow gridW 5 ndW "ID_0001" erNoDef 3).used_amount = some u
      ∧ (genRow gridW 5 ndW "ID_0001" erNoDef 3).credit_limit = some l
      ∧ 0 ≤ u ∧ u ≤ l)
    ∧ (∀ j, 0 ≤ used_amount_at 5 erNoDef j
        ∧ used_amount_at 5 erNoDef j ≤ credit_limit_at 5 erNoDef j) :=
  c2_usage_bound_before_default gridW 5 ndW "ID_0001" erNoDef 3 (by decide)
    (fun habs => absurd habs (by decide))

/-- Strict monotonicity of the concrete witness grid. -/
theorem gridW_mono : ∀ i j, i < j → j < 5 → (gridW i).rank < (gridW j).rank := by
  intro i j h1 h2
  show 2020 * 512 + 1 * 32 + (i + 1) < 2020 * 512 + 1 * 32 + (j + 1)
  omega

/-- C5: for every entity the default-state trajectory is monotonically
non-decreasing over the time grid (no 1→0 transition), has at most one
transition index, and is 0 at every row for a never-defaulting entity. -/
theorem c5_default_state_monotone (grid : Nat → Date) (L : Nat) (er : EntityRand)
    (hmono : ∀ i j, i < j → j < L → (grid i).rank < (grid j).rank) :
    (∀ i j, i ≤ j → j < L → default_ind_at grid er i ≤ default_ind_at grid er j)
    ∧ (∀ i j, i + 1 < L → j + 1 < L →
        default_ind_at grid er i ≠ default_ind_at grid er (i + 1) →
        default_ind_at grid er j ≠ default_ind_at grid er (j + 1) → i = j)
    ∧ (entityDefaultsB er = false → ∀ i, default_ind_at grid er i = 0) := by
  have hzero : entityDefaultsB er = false → ∀ i, default_ind_at grid er i = 0 := by
    intro hd i
    simp [default_ind_at, hd]
  have hmono2 : ∀ i j, i ≤ j → j < L →
      default_ind_at grid er i ≤ default_ind_at grid er j := by
    intro i j hij hj
    cases hd : entityDefaultsB er
    · simp [default_ind_at, hd]
    · rcases Nat.eq_or_lt_of_le hij with rfl | hlt
      · exact le_refl _
      · cases hle : dateLeB (grid (first_default_idx er)) (grid i)
        · simp [default_ind_at, hd, hle]
        · have h1 : (grid (first_default_idx er)).rank ≤ (grid i).rank := by
            simpa using hle
          have h2 : (grid i).rank < (grid j).rank := hmono i j hlt hj
          have h3 : dateLeB (grid (first_default_idx er)) (grid j) = true := by
            simp only [dateLeB_iff]
            omega
          simp [default_ind_at, hd, hle, h3]
  have key : ∀ a, a + 1 < L →
      default_ind_at grid er a ≠ default_ind_at grid er (a + 1) →
      (grid a).rank < (grid (first_default_idx er)).rank
        ∧ (grid (first_default_idx er)).rank ≤ (grid (a + 1)).rank := by
    intro a ha ht
    cases hd : entityDefaultsB er
    · exact absurd (by simp [default_ind_at, hd] :
        default_ind_at grid er a = default_ind_at grid er (a + 1)) ht
    · cases h1 : dateLeB (grid (first_default_idx er)) (grid a) <;>
        cases h2 : dateLeB (grid (first_default_idx er)) (grid (a + 1))
      · exact absurd (by simp [default_ind_at, hd, h1, h2] :
          default_ind_at grid er a = default_ind_at grid er (a + 1)) ht
      · constructor
        · have h1n := (dateLeB_false_iff _ _).mp h1
          omega
        · simpa using h2
      · have hm := hmono2 a (a + 1) (Nat.le_succ a) ha
        rw [show default_ind_at grid er a = 1 by simp [default_ind_at, hd, h1],
          show default_ind_at grid er (a + 1) = 0 by
            simp [default_ind_at, hd, h2]] at hm
        omega
      · exact absurd (by simp [default_ind_at, hd, h1, h2] :
          default_ind_at grid er a = default_ind_at grid er (a + 1)) ht
  refine ⟨hmono2, ?_, hzero⟩
  intro i j hi hj hti htj
  obtain ⟨hia, hib⟩ := key i hi hti
  obtain ⟨hja, hjb⟩ := key j hj htj
  rcases Nat.lt_trichotomy i j with hlt | heq | hgt
  · exfalso
    have h1 : (grid (i + 1)).rank ≤ (grid j).rank := by
      have hc : i + 1 = j ∨ i + 1 < j := by omega
      rcases hc with he | hl
      · rw [he]
      · exact le_of_lt (hmono (i + 1) j hl (by omega))
    omega
  · exact heq
  · exfalso
    have h1 : (grid (j + 1)).rank ≤ (grid i).rank := by
      have hc : j + 1 = i ∨ j + 1 < i := by omega
      rcases hc with he | hl
      · rw [he]
      · exact le_of_lt (hmono (j + 1) i hl (by omega))
    omega

theorem c5_default_state_monotone_witness :
    default_ind_at gridW erDef 1 ≤ default_ind_at gridW erDef 3 :=
  (c5_default_state_monotone gridW 5 erDef gridW_mono).1 1 3 (by decide) (by decide)

/-- C6: for a defaulting entity every regressor column (sector, credit limit,
used amount, all 5 noise features) is missing at every row at/after the
first-default index and present at every row strictly before it, while the
default-state flag is excluded from the nullified columns and keeps its
trajectory value (1 at/after, 0 before). -/
theorem c6_nullification_exact (grid : Nat → Date) (L : Nat) (nd : Fin 5 → ℚ)
    (idStr : String) (er : EntityRand) (hd : entityDefaultsB er = true)
    (hmono : ∀ i j, i < j → j < L → (grid i).rank < (grid j).rank)
    (hfr : first_default_idx er < L) (i : Nat) (hi : i < L) :
    (first_default_idx er ≤ i →
      (genRow grid L nd idStr er i).sector = none
      ∧ (genRow grid L nd idStr er i).credit_limit = none
      ∧ (genRow grid L nd idStr er i).used_amount = none
      ∧ (∀ k, (genRow grid L nd idStr er i).f_dummy k = none)
      ∧ (genRow grid L nd idStr er i).default_ind = 1)
    ∧ (i < first_default_idx er →
      (genRow grid L nd idStr er i).sector = some er.sectorDraw
      ∧ (genRow grid L nd idStr er i).credit_limit = some (credit_limit_at L er i)
      ∧ (genRow grid L nd idStr er i).used_amount = some (used_amount_at L er i)
      ∧ (∀ k, (genRow grid L nd idStr er i).f_dummy k = some (nd k * er.dummyZ k i))
      ∧ (genRow grid L nd idStr er i).default_ind = 0) := by
  constructor
  · intro hle
    have hdl : dateLeB (grid (first_default_idx er)) (grid i) = true := by
      rcases Nat.eq_or_lt_of_le hle with he | hl
      · simp [he]
      · simp only [dateLeB_iff]
        exact le_of_lt (hmono _ i hl hi)
    have hn : nullifiedB grid er i = true := by simp [nullifiedB, hd, hdl]
    exact ⟨by simp [genRow, hn], by simp [genRow, hn], by simp [genRow, hn],
      fun k => by simp [genRow, hn], by simp [genRow, default_ind_at, hd, hdl]⟩
  · intro hlt
    have hdl : dateLeB (grid (first_default_idx er)) (grid i) = false := by
      have hr := hmono i _ hlt hfr
      simp only [dateLeB, decide_eq_false_iff_not]
      omega
    have hn : nullifiedB grid er i = false := by simp [nullifiedB, hdl]
    exact ⟨by simp [genRow, hn], by simp [genRow, hn], by simp [genRow, hn],
      fun k => by simp [genRow, hn], by simp [genRow, default_ind_at, hd, hdl]⟩

theorem c6_nullification_exact_witness :
    (genRow gridW 5 ndW "ID_0001" erDef 3).used_amount = none
    ∧ (genRow gridW 5 ndW "ID_0001" erDef 3).default_ind = 1 :=
  ⟨((c6_nullification_exact gridW 5 ndW "ID_0001" erDef (by decide) gridW_mono
      (by decide) 3 (by decide)).1 (by decide)).2.2.1,
    ((c6_nullification_exact gridW 5 ndW "ID_0001" erDef (by decide) gridW_mono
      (by decide) 3 (by decide)).1 (by decide)).2.2.2.2⟩

/-- A defaulting entity whose index draw is 1, legal for L = 11. -/
def er7 : EntityRand := { erDef with defaultIdxDraw := 1 }

/-- C7 counterexample: for L = 11 the generator computes
min_default_idx = int(11 * 0.10) = 1 (floor), so the legal draw 1 yields a
first-default index of 1, strictly below ceil(0.10 * 11) = (11 + 9) / 10 = 2.
The claim that the index is always ≥ ceil(0.10 * L) is therefore false. -/
theorem c7_counterexample :
    min_default_idx 11 ≤ er7.defaultIdxDraw ∧ er7.defaultIdxDraw < 11
    ∧ first_default_idx er7 = 1
    ∧ first_default_idx er7 < (11 + 9) / 10 := by decide

/-- C7 (amended): the first-default index is drawn from the integer range
[floor(0.10 L), L - 1]: every legal draw lies in it, and every index of that
range is attained by some legal draw. -/
theorem c7_first_default_range (L : Nat) (hL : 1 ≤ L) :
    (∀ er : EntityRand, min_default_idx L ≤ er.defaultIdxDraw →
      er.defaultIdxDraw < L →
      L / 10 ≤ first_default_idx er ∧ first_default_idx er ≤ L - 1)
    ∧ (∀ k, L / 10 ≤ k → k < L →
      ∃ er : EntityRand, min_default_idx L ≤ er.defaultIdxDraw
        ∧ er.defaultIdxDraw < L ∧ first_default_idx er = k) := by
  have hmin : min_default_idx L = L / 10 := by
    unfold min_default_idx
    have hlt : ¬ (L / 10 ≥ L) := by omega
    rw [if_neg hlt]
  constructor
  · intro er h1 h2
    rw [hmin] at h1
    exact ⟨h1, Nat.le_pred_of_lt h2⟩
  · intro k hk1 hk2
    exact ⟨{ erDef with defaultIdxDraw := k }, by rw [hmin]; exact hk1, hk2, rfl⟩

theorem c7_first_default_range_witness :
    11 / 10 ≤ first_default_idx er7 ∧ first_default_idx er7 ≤ 11 - 1 :=
  (c7_first_default_range 11 (by decide)).1 er7 (by decide) (by decide)

/-- C8 counterexample: with an entity count of 0 the generator reaches
pd.concat on an empty list of frames, which raises ValueError — it does not
return an empty dataset. -/
theorem c8_counterexample :
    genDatasetE 0 5 gridW ndW (fun _ => erNoDef)
      = .error "No objects to concatenate" := rfl

/-- C8 (amended): a configuration with N = 0 or L = 0 makes the generator
raise instead of yielding an empty dataset: N = 0 reaches pd.concat with no
objects; N ≥ 1 with L = 0 fails inside the first entity (randint on the
empty range [0, 0) when the default Bernoulli fires, otherwise assigning the
length-1 credit-limit list to a 0-row frame). -/
theorem c8_empty_config_raises (N L : Nat) (grid : Nat → Date) (nd : Fin 5 → ℚ)
    (ers : Nat → EntityRand) (hN : 1 ≤ N) :
    genDatasetE 0 L grid nd ers = .error "No objects to concatenate"
    ∧ ∃ msg, genDatasetE N 0 grid nd ers = .error msg := by
  constructor
  · rfl
  · obtain ⟨M, rfl⟩ : ∃ M, N = M + 1 := ⟨N - 1, by omega⟩
    have he : ∃ msg0, genEntityE grid 0 nd (idStrOf 0) (ers 0) = .error msg0 := by
      unfold genEntityE
      cases hd : entityDefaultsB (ers 0)
      · refine ⟨"Length of values does not match length of index", ?_⟩
        simp [randintE, assignSeriesE, credit_limits_list, Bind.bind, Except.bind]
      · refine ⟨"low >= high", ?_⟩
        simp [randintE, min_default_idx, Bind.bind, Except.bind, Except.map]
    obtain ⟨msg0, he⟩ := he
    refine ⟨msg0, ?_⟩
    unfold genDatasetE
    rw [List.range_succ_eq_map]
    show (genEntityE grid 0 nd (idStrOf 0) (ers 0) >>= fun d =>
      (seqEntitiesE grid 0 nd ers (List.map (fun i => i + 1) (List.range M))).map
        (fun ds => d :: ds)) >>= pdConcatE = Except.error msg0
    rw [he]
    rfl

theorem c8_empty_config_raises_witness :
    genDatasetE 0 3 gridW ndW (fun _ => erNoDef)
      = .error "No objects to concatenate"
    ∧ ∃ msg, genDatasetE 1 0 gridW ndW (fun _ => erNoDef) = .error msg :=
  c8_empty_config_raises 1 3 gridW ndW (fun _ => erNoDef) (by decide)
